import Mathlib

/-!
# Verification of the hyprwhspr-go audio pipeline

Shallow embedding of the core audio pipeline of the hyprwhspr-go daemon:
the voice-activity detector (`internal/audio` VAD), the NLMS echo canceller
(AEC), the capture callbacks of the microphone and loopback recorders, and
the recording controller (`App`) with its background processing pipeline.

Modelling conventions:
* Go `float64`/`float32` arithmetic is embedded as exact rational (`ℚ`)
  arithmetic; every claim settled here is structural (guards, branch
  selection, index bookkeeping), not about rounding.
* Raw PCM samples handled at the byte level (the capture callbacks) are
  represented by their IEEE-754 bit patterns as `Nat`; the float32 value
  `0.0` is the bit pattern `0`.
* Go slices become `List`s, `int` becomes `Int`/`Nat` as appropriate, and
  Go's `int(x)` float-to-int conversion (truncation toward zero) is
  modelled by `goTrunc`.
* Stateful Go methods become explicit state-passing functions.
-/

/-- Go's `int(x)` conversion of a float: truncation toward zero. -/
def goTrunc (q : ℚ) : Int :=
  if q < 0 then ⌈q⌉ else ⌊q⌋

namespace Audio

/-! ## Voice activity detection (`vad.go`, `VADProcessor`) -/

/-- VAD configuration (`VADConfig` in the source). -/
structure VADConfig where
  frameSize : Nat
  overlap : Nat
  energyThreshold : ℚ
  zcrThreshold : ℚ
  voiceThreshold : ℚ
deriving Repr, DecidableEq

/-- `DefaultVADConfig` from the source. -/
def DefaultVADConfig : VADConfig :=
  { frameSize := 512
    overlap := 256
    energyThreshold := 0.01
    zcrThreshold := 0.1
    voiceThreshold := 0.5 }

/-- `VADProcessor.calculateEnergy`: mean of squared samples
(`ℚ` division by zero yields 0 for the empty frame, matching no reachable
call site: the caller guards `len(audio) ≥ FrameSize`). -/
def calculateEnergy (audio : List ℚ) : ℚ :=
  ((audio.map (fun s => s * s)).sum) / (audio.length : ℚ)

/-- Counts sign changes between consecutive samples, as in
`VADProcessor.calculateZCR`'s loop. -/
def countCrossings : List ℚ → Nat
  | a :: b :: rest =>
      (if (a ≥ 0 ∧ b < 0) ∨ (a < 0 ∧ b ≥ 0) then 1 else 0) + countCrossings (b :: rest)
  | _ => 0

/-- `VADProcessor.calculateZCR`: fraction of sign changes between
consecutive samples; 0 for frames shorter than two samples. -/
def calculateZCR (audio : List ℚ) : ℚ :=
  if audio.length < 2 then 0
  else (countCrossings audio : ℚ) / ((audio.length - 1 : Nat) : ℚ)

/-- `VADProcessor.calculateSpectralCentroid`: amplitude-weighted mean
sample index, 0 when the total magnitude (or the frame) is zero. -/
def calculateSpectralCentroid (audio : List ℚ) : ℚ :=
  if audio.length = 0 then 0
  else
    let weightedSum := ((audio.enum.map (fun p => |p.2| * (p.1 : ℚ))).sum)
    let magnitudeSum := ((audio.map (fun s => |s|)).sum)
    if magnitudeSum = 0 then 0 else weightedSum / magnitudeSum

/-- The combined per-frame voice probability computed inside
`VADProcessor.ProcessFrame` (energy, zero-crossing and spectral scores). -/
def voiceProbability (cfg : VADConfig) (audio : List ℚ) : ℚ :=
  let energy := calculateEnergy audio
  let zcr := calculateZCR audio
  let spectralCentroid := calculateSpectralCentroid audio
  let energyScore : ℚ :=
    if energy > cfg.energyThreshold then (min (energy / cfg.energyThreshold) 2) / 2 else 0
  let zcrScore : ℚ :=
    if zcr < cfg.zcrThreshold then 1 - zcr / cfg.zcrThreshold else 0
  let spectralScore0 : ℚ := spectralCentroid / 2000
  let spectralScore : ℚ := if spectralScore0 > 1 then 1 else spectralScore0
  energyScore * 0.5 + zcrScore * 0.3 + spectralScore * 0.2

/-- `VADProcessor.ProcessFrame`: frames shorter than `frameSize` are not
voice; otherwise the frame is voice iff the combined probability exceeds
`voiceThreshold`. -/
def ProcessFrame (cfg : VADConfig) (audio : List ℚ) : Bool :=
  if audio.length < cfg.frameSize then false
  else decide (voiceProbability cfg audio > cfg.voiceThreshold)

/-- `VADProcessor.IsVoiceDetected`: slides `frameSize`-sample windows at
`overlap` hop across the buffer and classifies each; windows clipped by the
buffer end (shorter than `frameSize`) stay at their zero-initialised
`false`. -/
def IsVoiceDetected (cfg : VADConfig) (audio : List ℚ) : List Bool :=
  if audio.length < cfg.frameSize then []
  else
    let frameCount := (audio.length - cfg.frameSize) / cfg.overlap + 1
    (List.range frameCount).map (fun i =>
      let start := i * cfg.overlap
      let frame := (audio.drop start).take cfg.frameSize
      if frame.length = cfg.frameSize then ProcessFrame cfg frame else false)

/-- `VoiceSegment` from the source (`Start`, `End`, `Duration`, all in
milliseconds); the Go field `End` is `stop` here (`end` is reserved). -/
structure VoiceSegment where
  start : ℚ
  stop : ℚ
  duration : ℚ
deriving Repr, DecidableEq

/-- The segment-merging loop of `VADProcessor.GetVoiceSegments`: walks the
per-frame classification with the current index, the in-voice flag and the
open segment's start frame; `n` is the total frame count used to close a
segment still open at the end. -/
def getSegmentsAux (fd : ℚ) (n : Nat) :
    Nat → Bool → Nat → List Bool → List VoiceSegment
  | _, inVoice, segStart, [] =>
      if inVoice then
        [{ start := (segStart : ℚ) * fd, stop := (n : ℚ) * fd,
           duration := ((n : ℚ) - (segStart : ℚ)) * fd }]
      else []
  | i, inVoice, segStart, b :: rest =>
      if b ∧ ¬inVoice then
        getSegmentsAux fd n (i + 1) true i rest
      else if ¬b ∧ inVoice then
        { start := (segStart : ℚ) * fd, stop := (i : ℚ) * fd,
          duration := ((i : ℚ) - (segStart : ℚ)) * fd } ::
          getSegmentsAux fd n (i + 1) false segStart rest
      else
        getSegmentsAux fd n (i + 1) inVoice segStart rest

/-- `VADProcessor.GetVoiceSegments`: classify, then merge consecutive voice
frames into segments with `frameDurationMs = overlap / 16000 * 1000`
(16 kHz assumed by the source). -/
def GetVoiceSegments (cfg : VADConfig) (audio : List ℚ) : List VoiceSegment :=
  let voiceActivity := IsVoiceDetected cfg audio
  if voiceActivity.length = 0 then []
  else
    let frameDurationMs : ℚ := (cfg.overlap : ℚ) / 16000 * 1000
    getSegmentsAux frameDurationMs voiceActivity.length 0 false 0 voiceActivity

/-! ## Acoustic echo cancellation (`aec.go`, `AECProcessor`) -/

/-- AEC configuration (`AECConfig` in the source). -/
structure AECConfig where
  filterLength : Nat
  stepSize : ℚ
  leakageFactor : ℚ
  echoSuppression : ℚ
deriving Repr, DecidableEq

/-- `DefaultAECConfig` from the source. -/
def DefaultAECConfig : AECConfig :=
  { filterLength := 1024
    stepSize := 0.05
    leakageFactor := 0.999
    echoSuppression := 0.7 }

/-- Mutable state of `AECProcessor`: the adaptive filter coefficients, the
circular far-end history and its write index. -/
structure AECState where
  filter : List ℚ
  farEndBuffer : List ℚ
  farEndIndex : Nat
deriving Repr, DecidableEq

/-- The state `NewAECProcessor` creates and `Reset` restores: zero
coefficients, zero history, index 0. -/
def resetState (cfg : AECConfig) : AECState :=
  { filter := List.replicate cfg.filterLength 0
    farEndBuffer := List.replicate cfg.filterLength 0
    farEndIndex := 0 }

/-- The circular-buffer read index `(farEndIndex - 1 - j + FilterLength) %
FilterLength` used by every inner loop of `AECProcessor.ProcessFrame`
(here `idx` is the already-advanced write index; the Go expression is
non-negative since `idx < N` and `j < N`). -/
def aecBufferIndex (n idx j : Nat) : Nat :=
  (idx + n - 1 - j) % n

/-- The per-sample echo estimate `Σ w[j]·r[(idx-1-j) mod N]` computed by
`AECProcessor.ProcessFrame` after the push of the current far-end sample. -/
def aecEchoEstimate (cfg : AECConfig) (filter buf : List ℚ) (idx : Nat) : ℚ :=
  ((List.range cfg.filterLength).map (fun j =>
    filter.getD j 0 * buf.getD (aecBufferIndex cfg.filterLength idx j) 0)).sum

/-- The reference-window power `Σ r[(idx-1-j) mod N]²` computed by
`AECProcessor.ProcessFrame` for the NLMS normalisation. -/
def aecPower (cfg : AECConfig) (buf : List ℚ) (idx : Nat) : ℚ :=
  ((List.range cfg.filterLength).map (fun j =>
    let r := buf.getD (aecBufferIndex cfg.filterLength idx j) 0
    r * r)).sum

/-- The clamping of the suppressed output sample to `[-1, 1]`
("soft clipping" in the source). -/
def aecClip (x : ℚ) : ℚ :=
  if x > 1 then 1 else if x < -1 then -1 else x

/-- One iteration of the per-sample loop of `AECProcessor.ProcessFrame`:
push the far-end sample, form the echo estimate and error, update the
filter under the `power > 1e-10` guard, emit the suppressed and clipped
output sample. -/
def aecStep (cfg : AECConfig) (s : AECState) (mic far : ℚ) : AECState × ℚ :=
  let buf := s.farEndBuffer.set s.farEndIndex far
  let idx := (s.farEndIndex + 1) % cfg.filterLength
  let echoEstimate := aecEchoEstimate cfg s.filter buf idx
  let errorSignal := mic - echoEstimate
  let power := aecPower cfg buf idx
  let filter' :=
    if power > 1e-10 then
      let normalizedStepSize := cfg.stepSize / (power + 1e-10)
      (List.range cfg.filterLength).map (fun j =>
        cfg.leakageFactor * s.filter.getD j 0 +
          normalizedStepSize * errorSignal *
            buf.getD (aecBufferIndex cfg.filterLength idx j) 0)
    else s.filter
  ({ filter := filter', farEndBuffer := buf, farEndIndex := idx },
    aecClip (errorSignal * cfg.echoSuppression))

/-- The value of `power` computed during one sample's update step of
`AECProcessor.ProcessFrame` (after the far-end push), i.e. the
reference-window power that gates the NLMS filter update. -/
def aecStepPower (cfg : AECConfig) (s : AECState) (far : ℚ) : ℚ :=
  aecPower cfg (s.farEndBuffer.set s.farEndIndex far)
    ((s.farEndIndex + 1) % cfg.filterLength)

/-- The whole per-sample loop of `AECProcessor.ProcessFrame` over the
paired mic/far-end samples, threading the state and collecting outputs. -/
def aecRun (cfg : AECConfig) : AECState → List (ℚ × ℚ) → AECState × List ℚ
  | s, [] => (s, [])
  | s, (m, f) :: rest =>
      let step := aecStep cfg s m f
      let next := aecRun cfg step.1 rest
      (next.1, step.2 :: next.2)

/-- `AECProcessor.ProcessFrame`: on a length mismatch the mic signal is
returned unchanged (a warning is printed) and the state is untouched;
otherwise the per-sample NLMS loop runs. -/
def AECProcessFrame (cfg : AECConfig) (s : AECState) (mic far : List ℚ) :
    AECState × List ℚ :=
  if mic.length ≠ far.length then (s, mic)
  else aecRun cfg s (mic.zip far)

/-- The condition under which `AECProcessor.ProcessFrame` prints its
length-mismatch warning. -/
def aecWarns (mic far : List ℚ) : Bool :=
  mic.length ≠ far.length

/-- The per-sample echo-estimate trace of one `ProcessFrame` call: the
value `aecEchoEstimate` takes at each iteration of the loop. -/
def aecEchoTrace (cfg : AECConfig) : AECState → List (ℚ × ℚ) → List ℚ
  | _, [] => []
  | s, (m, f) :: rest =>
      let buf := s.farEndBuffer.set s.farEndIndex f
      let idx := (s.farEndIndex + 1) % cfg.filterLength
      aecEchoEstimate cfg s.filter buf idx ::
        aecEchoTrace cfg (aecStep cfg s m f).1 rest

/-! ## Capture callbacks and recorders (`capture.go`) -/

/-- The little-endian float32 decode of the capture callbacks: four frame
bytes assembled into the IEEE-754 bit pattern
`p[idx] | p[idx+1]<<8 | p[idx+2]<<16 | p[idx+3]<<24`. Samples are
represented by their bit patterns; `0.0` is pattern `0`. -/
def decodeF32LE (p : List Nat) (idx : Nat) : Nat :=
  (p.getD idx 0) ||| ((p.getD (idx + 1) 0) <<< 8) |||
    ((p.getD (idx + 2) 0) <<< 16) ||| ((p.getD (idx + 3) 0) <<< 24)

/-- The sample-conversion loop of `onRecvFrames`: a zero-initialised array
of `framecount` samples, each slot `i` written with the decode of bytes
`4i..4i+3` only when `4i+3` is within the frame's byte payload. -/
def convertFrame (pSample : List Nat) (framecount : Nat) : List Nat :=
  (List.range framecount).foldl (fun acc i =>
    let idx := i * 4
    if idx + 3 < pSample.length then acc.set i (decodeF32LE pSample idx) else acc)
    (List.replicate framecount 0)

/-- The `onRecvFrames` capture callback of `Recorder.Start` (and of
`LoopbackRecorder.Start`): while not recording the buffer is untouched,
otherwise the converted frame is appended under the recorder's lock. -/
def onRecvFrames (recording : Bool) (samples pSample : List Nat)
    (framecount : Nat) : List Nat :=
  if ¬recording then samples
  else samples ++ convertFrame pSample framecount

/-- State of a `LoopbackRecorder`: the active flag and the accumulated
sample buffer (bit patterns). -/
structure LoopState where
  recording : Bool
  samples : List Nat
deriving Repr, DecidableEq

/-- Outcome of attempting one candidate monitor device inside
`LoopbackRecorder.Start`: `InitDevice` fails, `device.Start` fails, or
both succeed. -/
inductive DevOutcome where
  | initFail
  | startFail
  | ok
deriving Repr, DecidableEq

/-- The candidate loop of `LoopbackRecorder.Start`: try each monitor
device in order, returning success at the first device that initialises
and starts, or the aggregate error after the last. -/
def tryMonitorDevices : List DevOutcome → Except String Unit
  | [] => .error "failed to initialize any loopback device"
  | .ok :: _ => .ok ()
  | _ :: rest => tryMonitorDevices rest

/-- `LoopbackRecorder.Start` (the variant with the candidate loop): fails
when already recording or when no monitor device exists; otherwise tries
the candidates. On success it returns `nil` directly from inside the loop,
so the `lr.recording = true` statement after the aggregate-error return is
never executed: the model faithfully leaves `recording` as it was. -/
def LoopbackStart (lr : LoopState) (monitorDevices : List DevOutcome) :
    LoopState × Except String Unit :=
  if lr.recording then (lr, .error "already recording")
  else
    let lr1 : LoopState := { lr with samples := [] }
    if monitorDevices.isEmpty then
      (lr1, .error "no speaker monitor device found")
    else
      match tryMonitorDevices monitorDevices with
      | .ok _ => (lr1, .ok ())
      | .error e => (lr1, .error e)

/-- `LoopbackRecorder.Stop`: fails with `not recording` when inactive,
otherwise clears the flag and hands the accumulated buffer to the caller. -/
def LoopbackStop (lr : LoopState) : LoopState × Except String (List Nat) :=
  if ¬lr.recording then (lr, .error "not recording")
  else ({ lr with recording := false }, .ok lr.samples)

/-- The loopback capture callback as it acts on the recorder state. -/
def loopbackCallback (lr : LoopState) (pSample : List Nat)
    (framecount : Nat) : LoopState :=
  { lr with samples := onRecvFrames lr.recording lr.samples pSample framecount }

end Audio

namespace Controller

open Audio

/-! ## Recording controller (`main.go`, `App`) -/

/-- The controller-relevant fields of `App`: the recording flag and
whether the loopback recorder and AEC processor are present (non-nil). -/
structure AppCtl where
  isRecording : Bool
  hasLoopback : Bool
  hasAec : Bool
deriving Repr, DecidableEq

/-- `App.startRecording`: rejects when already recording, then sets
`isRecording` **before** anything else; a loopback-start failure only
clears the loopback/AEC fields; the result of `recorder.Start()` (an
environment input here) is returned as-is, with no rollback of
`isRecording` on error. -/
def startRecording (app : AppCtl)
    (loopbackStartResult micStartResult : Except String Unit) :
    AppCtl × Except String Unit :=
  if app.isRecording then (app, .error "already recording")
  else
    let app1 : AppCtl := { app with isRecording := true }
    let app2 : AppCtl :=
      if app1.hasLoopback then
        match loopbackStartResult with
        | .error _ => { app1 with hasLoopback := false, hasAec := false }
        | .ok _ => app1
      else app1
    (app2, micStartResult)

/-- The `status` branch of `App.handleCommand`: `"1"` when recording,
`"0"` otherwise. -/
def statusCommand (app : AppCtl) : String :=
  if app.isRecording then "1" else "0"

/-! ## Background processing pipeline (`App.processAudio`) -/

/-- The `int(paddingMs * sampleRate / 1000.0)` computation of
`App.processAudio` with the hardcoded `paddingMs = 200.0`. -/
def paddingSamplesOf (rate : Nat) : Int :=
  goTrunc (200 * (rate : ℚ) / 1000)

/-- `int(seg.Start*sampleRate/1000.0) - paddingSamples` before clamping. -/
def segStartSample (rate : Nat) (seg : VoiceSegment) : Int :=
  goTrunc (seg.start * (rate : ℚ) / 1000) - paddingSamplesOf rate

/-- `int(seg.End*sampleRate/1000.0) + paddingSamples` before clamping. -/
def segEndSample (rate : Nat) (seg : VoiceSegment) : Int :=
  goTrunc (seg.stop * (rate : ℚ) / 1000) + paddingSamplesOf rate

/-- The `if startSample < 0 { startSample = 0 }` clamp. -/
def segStartClamped (rate : Nat) (seg : VoiceSegment) : Int :=
  if segStartSample rate seg < 0 then 0 else segStartSample rate seg

/-- The `if endSample > len { endSample = len }` clamp. -/
def segEndClamped (rate len : Nat) (seg : VoiceSegment) : Int :=
  if segEndSample rate seg > (len : Int) then (len : Int) else segEndSample rate seg

/-- The inner `for j := startSample; j < endSample; j++ { keepMask[j] =
true }` loop of `App.processAudio`. -/
def markRange (mask : List Bool) (start stop : Nat) : List Bool :=
  (List.range' start (stop - start)).foldl (fun m j => m.set j true) mask

/-- The keep-mask of `App.processAudio`: start from all-`false` and mark
each segment's clamped padded range. -/
def keepMask (rate len : Nat) (segs : List VoiceSegment) : List Bool :=
  segs.foldl (fun m seg =>
    markRange m (segStartClamped rate seg).toNat (segEndClamped rate len seg).toNat)
    (List.replicate len false)

/-- The muting step of `App.processAudio`: a copy of the buffer with every
sample whose mask entry is `false` set to `0.0`. -/
def muteSamples (rate : Nat) (segs : List VoiceSegment) (buf : List ℚ) : List ℚ :=
  List.zipWith (fun s keep => if keep then s else (0 : ℚ)) buf
    (keepMask rate buf.length segs)

/-- The AEC stage of `App.processAudio`: when an AEC processor exists and
loopback samples were captured, both buffers are truncated to the shorter
length and run through `ProcessFrame`; otherwise the mic samples pass
through unchanged. -/
def aecStage (aec : Option (AECConfig × AECState)) (samples loopback : List ℚ) :
    List ℚ :=
  match aec with
  | some cs =>
      if loopback.length ≠ 0 then
        let minLen := min samples.length loopback.length
        if 0 < minLen then
          (AECProcessFrame cs.1 cs.2 (samples.take minLen) (loopback.take minLen)).2
        else samples
      else samples
  | none => samples

/-- `App.processAudio` up to the transcription hand-off: `some buf` means
`Transcribe` is invoked on `buf`; `none` means the pipeline aborted before
any transcription call (VAD found zero segments). -/
def processAudio (aec : Option (AECConfig × AECState)) (vad : Option VADConfig)
    (rate : Nat) (samples loopback : List ℚ) : Option (List ℚ) :=
  let processed := aecStage aec samples loopback
  match vad with
  | none => some processed
  | some vcfg =>
      let segs := GetVoiceSegments vcfg processed
      if segs.isEmpty then none
      else some (muteSamples rate segs processed)

end Controller

namespace PipelineProofs

open Audio Controller

/-- The index range kept for one segment, as an `Int` predicate on the
clamped code-side sample indices. -/
def inKeepRange (rate len : Nat) (seg : VoiceSegment) (i : Nat) : Prop :=
  segStartClamped rate seg ≤ (i : Int) ∧ (i : Int) < segEndClamped rate len seg

instance (rate len : Nat) (seg : VoiceSegment) (i : Nat) :
    Decidable (inKeepRange rate len seg i) := by
  unfold inKeepRange
  exact inferInstance

/-- `clamp(x, 0, 1)` as used by the spec's per-frame score formulas. -/
def clamp01 (x : ℚ) : ℚ := max 0 (min x 1)

/-- Modelled from the spec's words, for refinement comparison with the
source-side `voiceProbability` (claim C3): the spec states every score as
a clamp to `[0, 1]`, in particular
`energyScore = clamp(mean(sample²)/energy_threshold/2, 0, 1)`. -/
def specVoiceProbability (cfg : VADConfig) (audio : List ℚ) : ℚ :=
  0.5 * clamp01 (calculateEnergy audio / cfg.energyThreshold / 2)
    + 0.3 * clamp01 (1 - calculateZCR audio / cfg.zcrThreshold)
    + 0.2 * clamp01 (calculateSpectralCentroid audio / 2000)

/-! ## Generic helper lemmas about index-marking folds -/

/-- A fold whose step preserves list length preserves it overall. -/
theorem foldl_length_invariant {α β : Type} (f : List α → β → List α)
    (h : ∀ m b, (f m b).length = m.length) :
    ∀ (l : List β) (m : List α), (l.foldl f m).length = m.length := by
  intro l
  induction l with
  | nil => intro m; rfl
  | cons b bs ih => intro m; rw [List.foldl_cons, ih, h]

/-- Marking a list of indices with a fixed value: the result at `i` is the
value iff `i` was listed and in bounds, and the old entry otherwise. -/
theorem foldl_set_getD {α : Type} (v d : α) :
    ∀ (js : List Nat) (m : List α) (i : Nat),
      (js.foldl (fun acc j => acc.set j v) m).getD i d
        = if i ∈ js ∧ i < m.length then v else m.getD i d := by
  intro js
  induction js with
  | nil => intro m i; simp
  | cons j js ih =>
      intro m i
      rw [List.foldl_cons, ih]
      simp only [List.length_set, List.getD_eq_getElem?_getD, List.getElem?_set,
        List.mem_cons]
      by_cases hj : j = i
      · subst hj
        by_cases hlen : j < m.length
        · by_cases hmem : j ∈ js <;> simp [hlen, hmem]
        · by_cases hmem : j ∈ js <;>
            simp [hlen, hmem, List.getElem?_eq_none (Nat.le_of_not_lt hlen)]
      · have hji : ¬i = j := fun h => hj h.symm
        by_cases hmem : i ∈ js
        · by_cases hlen : i < m.length <;> simp [hj, hji, hmem, hlen]
        · simp [hj, hji, hmem]

/-- Guarded variant: each listed index `j` is written with `v j` only when
`c j` holds. -/
theorem foldl_set_guard_getD {α : Type} (c : Nat → Prop) [DecidablePred c]
    (v : Nat → α) (d : α) :
    ∀ (js : List Nat) (m : List α) (i : Nat),
      (js.foldl (fun acc j => if c j then acc.set j (v j) else acc) m).getD i d
        = if i ∈ js ∧ c i ∧ i < m.length then v i else m.getD i d := by
  intro js
  induction js with
  | nil => intro m i; simp
  | cons j js ih =>
      intro m i
      rw [List.foldl_cons, ih]
      by_cases hcj : c j
      · simp only [if_pos hcj, List.length_set, List.getD_eq_getElem?_getD,
          List.getElem?_set, List.mem_cons]
        by_cases hj : j = i
        · subst hj
          by_cases hlen : j < m.length
          · by_cases hmem : j ∈ js <;> simp [hlen, hmem, hcj]
          · by_cases hmem : j ∈ js <;>
              simp [hlen, hmem, hcj, List.getElem?_eq_none (Nat.le_of_not_lt hlen)]
        · have hji : ¬i = j := fun h => hj h.symm
          by_cases hmem : i ∈ js
          · by_cases hlen : i < m.length <;> simp [hj, hji, hmem, hlen]
          · simp [hj, hji, hmem]
      · simp only [if_neg hcj, List.mem_cons]
        by_cases hj : j = i
        · subst hj
          by_cases hmem : j ∈ js
          · simp [hmem]
          · simp [hmem, hcj]
        · have hji : ¬i = j := fun h => hj h.symm
          by_cases hmem : i ∈ js
          · simp [hj, hji, hmem]
          · simp [hj, hji, hmem]

/-! ## Characterising the muting mask -/

theorem segStartClamped_nonneg (rate : Nat) (seg : VoiceSegment) :
    0 ≤ segStartClamped rate seg := by
  unfold segStartClamped
  split <;> omega

theorem markRange_length (m : List Bool) (s e : Nat) :
    (markRange m s e).length = m.length := by
  unfold markRange
  exact foldl_length_invariant _ (fun m j => List.length_set m j true) _ m

theorem markRange_getD (m : List Bool) (s e i : Nat) :
    (markRange m s e).getD i false
      = if s ≤ i ∧ i < e ∧ i < m.length then true else m.getD i false := by
  unfold markRange
  rw [foldl_set_getD]
  by_cases h : s ≤ i ∧ i < e ∧ i < m.length
  · rw [if_pos ⟨List.mem_range'_1.mpr ⟨h.1, by omega⟩, h.2.2⟩, if_pos h]
  · rw [if_neg, if_neg h]
    rintro ⟨hmem, hlen⟩
    rcases List.mem_range'_1.mp hmem with ⟨h1, h2⟩
    exact h ⟨h1, by omega, hlen⟩

theorem keepMask_length (rate len : Nat) (segs : List VoiceSegment) :
    (keepMask rate len segs).length = len := by
  unfold keepMask
  rw [foldl_length_invariant _ (fun m seg => markRange_length m _ _) segs _]
  exact List.length_replicate len false

theorem keepMask_fold_getD (rate len : Nat) :
    ∀ (segs : List VoiceSegment) (m : List Bool), m.length = len →
      ∀ i, i < len →
        ((segs.foldl (fun m seg =>
            markRange m (segStartClamped rate seg).toNat
              (segEndClamped rate len seg).toNat) m).getD i false = true
          ↔ (∃ seg ∈ segs, inKeepRange rate len seg i) ∨ m.getD i false = true) := by
  intro segs
  induction segs with
  | nil => intro m _ i _; simp
  | cons seg segs ih =>
      intro m hm i hi
      rw [List.foldl_cons,
        ih _ (by rw [markRange_length, hm]) i hi, markRange_getD]
      have hs := segStartClamped_nonneg rate seg
      constructor
      · rintro (⟨s, hmem, hks⟩ | h)
        · exact Or.inl ⟨s, List.mem_cons_of_mem _ hmem, hks⟩
        · by_cases hc : (segStartClamped rate seg).toNat ≤ i ∧
              i < (segEndClamped rate len seg).toNat ∧ i < m.length
          · refine Or.inl ⟨seg, List.mem_cons_self _ _, ?_⟩
            unfold inKeepRange
            omega
          · rw [if_neg hc] at h
            exact Or.inr h
      · rintro (⟨s, hmem, hks⟩ | h)
        · rcases List.mem_cons.mp hmem with rfl | hmem'
          · refine Or.inr ?_
            rw [if_pos ?_]
            unfold inKeepRange at hks
            omega
          · exact Or.inl ⟨s, hmem', hks⟩
        · refine Or.inr ?_
          split
          · rfl
          · exact h

theorem keepMask_getD (rate len : Nat) (segs : List VoiceSegment) (i : Nat)
    (hi : i < len) :
    ((keepMask rate len segs).getD i false = true)
      ↔ ∃ seg ∈ segs, inKeepRange rate len seg i := by
  unfold keepMask
  rw [keepMask_fold_getD rate len segs _ (List.length_replicate len false) i hi]
  simp [List.getD_eq_getElem?_getD, List.getElem?_replicate, hi]

theorem muteSamples_length (rate : Nat) (segs : List VoiceSegment) (buf : List ℚ) :
    (muteSamples rate segs buf).length = buf.length := by
  unfold muteSamples
  rw [List.length_zipWith, keepMask_length, Nat.min_self]

theorem muteSamples_getD (rate : Nat) (segs : List VoiceSegment) (buf : List ℚ)
    (i : Nat) (hi : i < buf.length) :
    (muteSamples rate segs buf).getD i 0 =
      if (keepMask rate buf.length segs).getD i false = true
      then buf.getD i 0 else 0 := by
  have hmask : i < (keepMask rate buf.length segs).length := by
    rw [keepMask_length]; exact hi
  have hbuf : buf[i]? = some (buf.getD i 0) := by
    simp [List.getD_eq_getElem?_getD, List.getElem?_eq_getElem hi]
  have hkm : (keepMask rate buf.length segs)[i]?
      = some ((keepMask rate buf.length segs).getD i false) := by
    simp [List.getD_eq_getElem?_getD, List.getElem?_eq_getElem hmask]
  unfold muteSamples
  rw [List.getD_eq_getElem?_getD, List.getElem?_zipWith', hbuf, hkm]
  simp

/-- **C2.** For every buffer and non-empty segment list, the muting step
produces a same-length copy in which a sample is unchanged iff its index
lies in the union of the clamped padded segment ranges, and is exactly 0
otherwise; overlapping ranges behave as the union of the kept ranges. -/
theorem mute_keeps_padded_union (rate : Nat) (segs : List VoiceSegment)
    (buf : List ℚ) (hseg : segs ≠ []) (i : Nat) (hi : i < buf.length) :
    (muteSamples rate segs buf).length = buf.length ∧
    (muteSamples rate segs buf).getD i 0 =
      if ∃ seg ∈ segs, inKeepRange rate buf.length seg i
      then buf.getD i 0 else 0 := by
  refine ⟨muteSamples_length rate segs buf, ?_⟩
  rw [muteSamples_getD rate segs buf i hi]
  by_cases hk : (keepMask rate buf.length segs).getD i false = true
  · rw [if_pos hk, if_pos ((keepMask_getD rate buf.length segs i hi).mp hk)]
  · rw [if_neg hk,
      if_neg (fun hex => hk ((keepMask_getD rate buf.length segs i hi).mpr hex))]

/-- Witness for `mute_keeps_padded_union` at rate 10 (padding = 2
samples), one segment 300–400 ms over a 6-sample buffer: index 0 is
outside the padded range and muted to 0. -/
theorem mute_keeps_padded_union_witness :
    (([⟨300, 400, 100⟩] : List VoiceSegment) ≠ []) ∧
    0 < ([1, 1, 1, 1, 1, 1] : List ℚ).length ∧
    (muteSamples 10 [⟨300, 400, 100⟩] ([1, 1, 1, 1, 1, 1] : List ℚ)).length
      = ([1, 1, 1, 1, 1, 1] : List ℚ).length ∧
    (muteSamples 10 ([⟨300, 400, 100⟩] : List VoiceSegment)
        ([1, 1, 1, 1, 1, 1] : List ℚ)).getD 0 0 =
      if ∃ seg ∈ ([⟨300, 400, 100⟩] : List VoiceSegment),
          inKeepRange 10 ([1, 1, 1, 1, 1, 1] : List ℚ).length seg 0
      then ([1, 1, 1, 1, 1, 1] : List ℚ).getD 0 0 else 0 := by
  have h := mute_keeps_padded_union 10 [⟨300, 400, 100⟩]
    ([1, 1, 1, 1, 1, 1] : List ℚ) (by simp) 0 (by simp)
  exact ⟨by simp, by simp, h.1, h.2⟩

/-- **C9.** The number of classified frames: `(L − f)/o + 1` (floor
division) when `L ≥ f`, else 0. -/
theorem vad_frame_count (cfg : VADConfig) (audio : List ℚ)
    (ho : 0 < cfg.overlap) (hof : cfg.overlap < cfg.frameSize) :
    (IsVoiceDetected cfg audio).length =
      if cfg.frameSize ≤ audio.length
      then (audio.length - cfg.frameSize) / cfg.overlap + 1 else 0 := by
  unfold IsVoiceDetected
  by_cases h : audio.length < cfg.frameSize
  · rw [if_pos h, if_neg (by omega)]
    rfl
  · rw [if_neg h, if_pos (by omega)]
    simp

/-- Witness for `vad_frame_count`: frame size 4, hop 2, 10 samples give
`(10 − 4)/2 + 1 = 4` frames. -/
theorem vad_frame_count_witness :
    0 < (2 : Nat) ∧ (2 : Nat) < 4 ∧
    (IsVoiceDetected ⟨4, 2, 0.01, 0.1, 0.5⟩ (List.replicate 10 (0 : ℚ))).length =
      if 4 ≤ (List.replicate 10 (0 : ℚ)).length
      then ((List.replicate 10 (0 : ℚ)).length - 4) / 2 + 1 else 0 := by
  refine ⟨by decide, by decide, ?_⟩
  exact vad_frame_count ⟨4, 2, 0.01, 0.1, 0.5⟩ (List.replicate 10 (0 : ℚ))
    (by decide) (by decide)

/-- **C1.** With VAD enabled, zero voice segments on the post-AEC signal
abort the pipeline before any transcription call: `processAudio` yields
`none` (the transcription consumer is never invoked). -/
theorem vad_zero_segments_aborts (aec : Option (AECConfig × AECState))
    (vcfg : VADConfig) (rate : Nat) (samples loopback : List ℚ)
    (h : GetVoiceSegments vcfg (aecStage aec samples loopback) = []) :
    processAudio aec (some vcfg) rate samples loopback = none := by
  unfold processAudio
  simp [h]

/-- Witness for `vad_zero_segments_aborts`: an all-zero 3-sample buffer
with a 2-sample frame yields zero segments and no transcription. -/
theorem vad_zero_segments_aborts_witness :
    GetVoiceSegments ⟨2, 1, 0.01, 0.1, 0.5⟩
        (aecStage none ([0, 0, 0] : List ℚ) []) = [] ∧
    processAudio none (some ⟨2, 1, 0.01, 0.1, 0.5⟩) 16000
        ([0, 0, 0] : List ℚ) [] = none := by
  have hseg : GetVoiceSegments ⟨2, 1, 0.01, 0.1, 0.5⟩
      (aecStage none ([0, 0, 0] : List ℚ) []) = [] := by
    norm_num [aecStage, GetVoiceSegments, IsVoiceDetected, ProcessFrame,
      voiceProbability, calculateEnergy, calculateZCR, countCrossings,
      calculateSpectralCentroid, getSegmentsAux, List.range_succ]
  exact ⟨hseg,
    vad_zero_segments_aborts none ⟨2, 1, 0.01, 0.1, 0.5⟩ 16000 [0, 0, 0] [] hseg⟩

/-! ## The echo canceller on an all-zero reference -/

theorem getD_replicate_zero (n i : Nat) :
    (List.replicate n (0 : ℚ)).getD i 0 = 0 := by
  rw [List.getD_eq_getElem?_getD, List.getElem?_replicate]
  split <;> rfl

theorem aecEchoEstimate_zero_buf (cfg : AECConfig) (filter : List ℚ) (idx : Nat) :
    aecEchoEstimate cfg filter (List.replicate cfg.filterLength 0) idx = 0 := by
  unfold aecEchoEstimate
  apply List.sum_eq_zero
  intro x hx
  simp only [List.mem_map, List.mem_range] at hx
  obtain ⟨j, _, rfl⟩ := hx
  rw [getD_replicate_zero]
  ring

theorem aecPower_zero_buf (cfg : AECConfig) (idx : Nat) :
    aecPower cfg (List.replicate cfg.filterLength 0) idx = 0 := by
  unfold aecPower
  apply List.sum_eq_zero
  intro x hx
  simp only [List.mem_map, List.mem_range] at hx
  obtain ⟨j, _, rfl⟩ := hx
  rw [getD_replicate_zero]
  ring

theorem aecStep_zero_buf (cfg : AECConfig) (s : AECState) (m : ℚ)
    (hbuf : s.farEndBuffer = List.replicate cfg.filterLength 0) :
    aecStep cfg s m 0 =
      ({ filter := s.filter
         farEndBuffer := List.replicate cfg.filterLength 0
         farEndIndex := (s.farEndIndex + 1) % cfg.filterLength },
        aecClip (m * cfg.echoSuppression)) := by
  simp only [aecStep, hbuf, List.set_replicate_self, aecEchoEstimate_zero_buf,
    aecPower_zero_buf, sub_zero]
  rw [if_neg (by norm_num)]

theorem aecRun_zero_reference (cfg : AECConfig) (mic : List ℚ) :
    ∀ s : AECState, s.farEndBuffer = List.replicate cfg.filterLength 0 →
      (aecRun cfg s (mic.zip (List.replicate mic.length 0))).1.filter = s.filter
      ∧ (aecRun cfg s (mic.zip (List.replicate mic.length 0))).1.farEndBuffer
          = List.replicate cfg.filterLength 0
      ∧ (aecRun cfg s (mic.zip (List.replicate mic.length 0))).2
          = mic.map (fun m => aecClip (m * cfg.echoSuppression))
      ∧ aecEchoTrace cfg s (mic.zip (List.replicate mic.length 0))
          = List.replicate mic.length 0 := by
  induction mic with
  | nil =>
      intro s hbuf
      exact ⟨rfl, hbuf, rfl, rfl⟩
  | cons m rest ih =>
      intro s hbuf
      have hz : (m :: rest).zip (List.replicate (m :: rest).length (0 : ℚ))
          = (m, (0 : ℚ)) :: rest.zip (List.replicate rest.length (0 : ℚ)) := by
        simp [List.replicate_succ]
      have hstep := aecStep_zero_buf cfg s m hbuf
      have hs' : (aecStep cfg s m 0).1.farEndBuffer
          = List.replicate cfg.filterLength 0 := by rw [hstep]
      have ihh := ih (aecStep cfg s m 0).1 hs'
      rw [hz]
      refine ⟨?_, ?_, ?_, ?_⟩
      · show (aecRun cfg (aecStep cfg s m 0).1
            (rest.zip (List.replicate rest.length 0))).1.filter = s.filter
        rw [ihh.1, hstep]
      · exact ihh.2.1
      · show (aecStep cfg s m 0).2 ::
            (aecRun cfg (aecStep cfg s m 0).1
              (rest.zip (List.replicate rest.length 0))).2
          = (m :: rest).map (fun m => aecClip (m * cfg.echoSuppression))
        rw [List.map_cons, ihh.2.2.1, hstep]
      · show aecEchoEstimate cfg s.filter (s.farEndBuffer.set s.farEndIndex 0)
            ((s.farEndIndex + 1) % cfg.filterLength) ::
            aecEchoTrace cfg (aecStep cfg s m 0).1
              (rest.zip (List.replicate rest.length 0))
          = List.replicate (m :: rest).length 0
        rw [hbuf, List.set_replicate_self, aecEchoEstimate_zero_buf, ihh.2.2.2]
        simp [List.replicate_succ]

/-- **C4 counterexample.** With the default-style parameters (suppression
gain 0.7) and a fresh (`Reset`) state, a 1-sample mic buffer `[1]`
processed against the all-zero reference `[0]` yields output `[0.7]`, not
the input `[1]`: the output is the suppressed mic signal, not
approximately the mic signal. -/
theorem aec_reset_zero_ref_counterexample :
    (AECProcessFrame ⟨2, 0.05, 0.999, 0.7⟩ (resetState ⟨2, 0.05, 0.999, 0.7⟩)
        [1] (List.replicate 1 0)).2 = [0.7] ∧
    ([0.7] : List ℚ) ≠ [1] := by
  constructor
  · have h := (aecRun_zero_reference ⟨2, 0.05, 0.999, 0.7⟩ [1]
      (resetState ⟨2, 0.05, 0.999, 0.7⟩) rfl).2.2.1
    have hpf : AECProcessFrame ⟨2, 0.05, 0.999, 0.7⟩
        (resetState ⟨2, 0.05, 0.999, 0.7⟩) [1] (List.replicate 1 0)
        = aecRun ⟨2, 0.05, 0.999, 0.7⟩ (resetState ⟨2, 0.05, 0.999, 0.7⟩)
            ([1].zip (List.replicate 1 0)) := by
      unfold AECProcessFrame
      rw [if_neg (by simp)]
    rw [hpf]
    rw [show (List.replicate 1 (0 : ℚ)) = List.replicate ([(1 : ℚ)].length) 0 from rfl]
    rw [h]
    norm_num [aecClip]
  · intro h
    have := List.head_eq_of_cons_eq h
    norm_num at this

/-- **C4 (amended).** `Reset()` then `ProcessFrame` with an equal-length
all-zero reference yields an echo estimate of exactly 0 at every sample
and output `clamp(mic[i] · echo_suppression, −1, 1)` — the mic signal
scaled by the suppression gain (equal to the input only when the gain is
1 and samples lie in `[−1, 1]`); the filter coefficients remain zero. -/
theorem aec_reset_zero_reference (cfg : AECConfig) (mic : List ℚ) :
    (AECProcessFrame cfg (resetState cfg) mic (List.replicate mic.length 0)).2
        = mic.map (fun m => aecClip (m * cfg.echoSuppression))
    ∧ aecEchoTrace cfg (resetState cfg) (mic.zip (List.replicate mic.length 0))
        = List.replicate mic.length 0
    ∧ (AECProcessFrame cfg (resetState cfg) mic
        (List.replicate mic.length 0)).1.filter
        = List.replicate cfg.filterLength 0 := by
  have h := aecRun_zero_reference cfg mic (resetState cfg) rfl
  have hpf : AECProcessFrame cfg (resetState cfg) mic (List.replicate mic.length 0)
      = aecRun cfg (resetState cfg) (mic.zip (List.replicate mic.length 0)) := by
    unfold AECProcessFrame
    rw [if_neg (by simp)]
  rw [hpf]
  exact ⟨h.2.2.1, h.2.2.2, h.1.trans rfl⟩

/-- **C7.** The filter coefficients are left completely unchanged by any
sample's update step whose reference-window power is at most the guard
constant `1e-10`; in particular, from a state whose reference history is
all zero, processing any mic buffer against an all-zero reference never
modifies the coefficients. -/
theorem aec_filter_frozen (cfg : AECConfig) :
    (∀ (s : AECState) (mic far : ℚ),
        aecStepPower cfg s far ≤ 1e-10 →
        (aecStep cfg s mic far).1.filter = s.filter)
    ∧ ∀ s : AECState, s.farEndBuffer = List.replicate cfg.filterLength 0 →
        ∀ mic : List ℚ,
          (AECProcessFrame cfg s mic (List.replicate mic.length 0)).1.filter
            = s.filter := by
  constructor
  · intro s mic far h
    unfold aecStepPower at h
    simp only [aecStep]
    rw [if_neg (not_lt.mpr h)]
  · intro s hbuf mic
    have hpf : AECProcessFrame cfg s mic (List.replicate mic.length 0)
        = aecRun cfg s (mic.zip (List.replicate mic.length 0)) := by
      unfold AECProcessFrame
      rw [if_neg (by simp)]
    rw [hpf]
    exact (aecRun_zero_reference cfg mic s hbuf).1

/-- Witness for `aec_filter_frozen`: a 1-tap filter state with nonzero
coefficient `[5]`, zero history and a zero far-end sample has window power
0 ≤ 1e-10, and neither one step nor a whole frame changes the filter. -/
theorem aec_filter_frozen_witness :
    aecStepPower ⟨1, 0.05, 0.999, 0.7⟩ ⟨[5], [0], 0⟩ 0 ≤ 1e-10 ∧
    (aecStep ⟨1, 0.05, 0.999, 0.7⟩ ⟨[5], [0], 0⟩ 1 0).1.filter = [5] ∧
    (AECProcessFrame ⟨1, 0.05, 0.999, 0.7⟩ ⟨[5], [0], 0⟩ [1]
        (List.replicate 1 0)).1.filter = [5] := by
  have hp : aecStepPower ⟨1, 0.05, 0.999, 0.7⟩ ⟨[5], [0], 0⟩ 0 ≤ 1e-10 := by
    norm_num [aecStepPower, aecPower, aecBufferIndex, List.range_succ]
  exact ⟨hp, (aec_filter_frozen ⟨1, 0.05, 0.999, 0.7⟩).1 ⟨[5], [0], 0⟩ 1 0 hp,
    (aec_filter_frozen ⟨1, 0.05, 0.999, 0.7⟩).2 ⟨[5], [0], 0⟩ rfl [1]⟩

/-- **C8.** On a mic/far-end length mismatch `ProcessFrame` returns the
mic buffer unchanged with an untouched adaptive-filter state, and the
warning condition holds — a non-fatal pass-through, never an abort. -/
theorem aec_length_mismatch_passthrough (cfg : AECConfig) (s : AECState)
    (mic far : List ℚ) (h : mic.length ≠ far.length) :
    AECProcessFrame cfg s mic far = (s, mic) ∧ aecWarns mic far = true := by
  constructor
  · unfold AECProcessFrame
    rw [if_pos h]
  · simp [aecWarns, h]

/-- Witness for `aec_length_mismatch_passthrough`: one mic sample against
an empty far-end buffer passes through with the state untouched. -/
theorem aec_length_mismatch_passthrough_witness :
    (([1] : List ℚ).length ≠ ([] : List ℚ).length) ∧
    AECProcessFrame DefaultAECConfig (resetState DefaultAECConfig) [1] []
      = (resetState DefaultAECConfig, [1]) ∧
    aecWarns [1] [] = true := by
  have h : ([1] : List ℚ).length ≠ ([] : List ℚ).length := by decide
  exact ⟨h,
    (aec_length_mismatch_passthrough DefaultAECConfig
      (resetState DefaultAECConfig) [1] [] h).1,
    (aec_length_mismatch_passthrough DefaultAECConfig
      (resetState DefaultAECConfig) [1] [] h).2⟩

/-! ## The VAD per-frame score -/

theorem calculateZCR_nonneg (audio : List ℚ) : 0 ≤ calculateZCR audio := by
  unfold calculateZCR
  split
  · exact le_refl 0
  · exact div_nonneg (Nat.cast_nonneg _) (Nat.cast_nonneg _)

theorem calculateSpectralCentroid_nonneg (audio : List ℚ) :
    0 ≤ calculateSpectralCentroid audio := by
  have hw : 0 ≤ (audio.enum.map (fun p => |p.2| * (p.1 : ℚ))).sum := by
    apply List.sum_nonneg
    intro x hx
    simp only [List.mem_map] at hx
    obtain ⟨p, _, rfl⟩ := hx
    exact mul_nonneg (abs_nonneg _) (Nat.cast_nonneg _)
  have hm : 0 ≤ (audio.map (fun s => |s|)).sum := by
    apply List.sum_nonneg
    intro x hx
    simp only [List.mem_map] at hx
    obtain ⟨s, _, rfl⟩ := hx
    exact abs_nonneg _
  unfold calculateSpectralCentroid
  split
  · exact le_refl 0
  · dsimp only
    split
    · exact le_refl 0
    · exact div_nonneg hw hm

theorem zcrScore_eq_clamp01 (thr zcr : ℚ) (hthr : 0 < thr) (hz : 0 ≤ zcr) :
    (if zcr < thr then 1 - zcr / thr else 0) = clamp01 (1 - zcr / thr) := by
  unfold clamp01
  by_cases h : zcr < thr
  · have h1 : zcr / thr < 1 := (div_lt_one hthr).mpr h
    have h2 : 0 ≤ zcr / thr := div_nonneg hz hthr.le
    rw [if_pos h, min_eq_left (by linarith), max_eq_right (by linarith)]
  · have h1 : 1 ≤ zcr / thr := (one_le_div hthr).mpr (not_lt.mp h)
    rw [if_neg h, min_eq_left (by linarith), max_eq_left (by linarith)]

theorem spectralScore_eq_clamp01 (c : ℚ) (hc : 0 ≤ c) :
    (if c / 2000 > 1 then (1 : ℚ) else c / 2000) = clamp01 (c / 2000) := by
  unfold clamp01
  have h2 : 0 ≤ c / 2000 := div_nonneg hc (by norm_num)
  by_cases h : c / 2000 > 1
  · rw [if_pos h, min_eq_right h.le, max_eq_right (by norm_num)]
  · rw [if_neg h, min_eq_left (not_lt.mp h), max_eq_right h2]

/-- **C3 counterexample.** Config `{frameSize 2, thresholds 1, 1, voice
0.4}` and the frame `[3/4, 3/4]`: its mean squared energy `9/16` is
positive and below the energy threshold, so the code's energy score is 0
and the frame is classified as non-voice, while the claim's
`clamp(mean/threshold/2, 0, 1)` formula gives probability `> 0.4`, i.e.
voice — the claimed per-frame formula and iff are false on the code. -/
theorem vad_energy_score_counterexample :
    ProcessFrame ⟨2, 1, 1, 1, 0.4⟩ [3/4, 3/4] = false ∧
    specVoiceProbability ⟨2, 1, 1, 1, 0.4⟩ [3/4, 3/4] > (0.4 : ℚ) ∧
    0 < calculateEnergy [(3/4 : ℚ), 3/4] ∧
    calculateEnergy [(3/4 : ℚ), 3/4] ≤ 1 ∧
    voiceProbability ⟨2, 1, 1, 1, 0.4⟩ [3/4, 3/4] ≤ (0.4 : ℚ) := by
  norm_num [ProcessFrame, voiceProbability, specVoiceProbability, clamp01,
    calculateEnergy, calculateZCR, countCrossings, calculateSpectralCentroid,
    List.enum, List.enumFrom, abs_of_nonneg]

/-- **C3 (amended).** For every frame of at least `frameSize` samples and
positive thresholds, the frame is voice iff
`0.5·energyScore + 0.3·zcrScore + 0.2·spectralScore > voice_threshold`,
with `zcrScore = clamp(1 − zcr/zcr_threshold, 0, 1)` and
`spectralScore = clamp(centroid/2000, 0, 1)` as the claim states, but
`energyScore = 0` when the mean squared energy is at most
`energy_threshold`, and `min(energy/energy_threshold, 2)/2` above it (not
`clamp(energy/energy_threshold/2, 0, 1)`). -/
theorem vad_frame_score (cfg : VADConfig) (audio : List ℚ)
    (hlen : cfg.frameSize ≤ audio.length) (hE : 0 < cfg.energyThreshold)
    (hZ : 0 < cfg.zcrThreshold) :
    ProcessFrame cfg audio = true ↔
      (if calculateEnergy audio > cfg.energyThreshold
        then min (calculateEnergy audio / cfg.energyThreshold) 2 / 2
        else 0) * 0.5
      + clamp01 (1 - calculateZCR audio / cfg.zcrThreshold) * 0.3
      + clamp01 (calculateSpectralCentroid audio / 2000) * 0.2
      > cfg.voiceThreshold := by
  have hvp : voiceProbability cfg audio =
      (if calculateEnergy audio > cfg.energyThreshold
        then min (calculateEnergy audio / cfg.energyThreshold) 2 / 2
        else 0) * 0.5
      + clamp01 (1 - calculateZCR audio / cfg.zcrThreshold) * 0.3
      + clamp01 (calculateSpectralCentroid audio / 2000) * 0.2 := by
    simp only [voiceProbability]
    rw [zcrScore_eq_clamp01 cfg.zcrThreshold (calculateZCR audio) hZ
        (calculateZCR_nonneg audio),
      spectralScore_eq_clamp01 (calculateSpectralCentroid audio)
        (calculateSpectralCentroid_nonneg audio)]
  unfold ProcessFrame
  rw [if_neg (not_lt.mpr hlen), decide_eq_true_eq, hvp]

/-- Witness for `vad_frame_score`: the 2-sample frame `[3/4, 3/4]` with
all thresholds 1 and voice threshold 0.4 satisfies every hypothesis. -/
theorem vad_frame_score_witness :
    ((⟨2, 1, 1, 1, 0.4⟩ : VADConfig).frameSize ≤ ([3/4, 3/4] : List ℚ).length) ∧
    (0 : ℚ) < 1 ∧
    (ProcessFrame ⟨2, 1, 1, 1, 0.4⟩ [3/4, 3/4] = true ↔
      (if calculateEnergy [(3/4 : ℚ), 3/4] > (⟨2, 1, 1, 1, 0.4⟩ : VADConfig).energyThreshold
        then min (calculateEnergy [(3/4 : ℚ), 3/4] / (⟨2, 1, 1, 1, 0.4⟩ : VADConfig).energyThreshold) 2 / 2
        else 0) * 0.5
      + clamp01 (1 - calculateZCR [(3/4 : ℚ), 3/4] / (⟨2, 1, 1, 1, 0.4⟩ : VADConfig).zcrThreshold) * 0.3
      + clamp01 (calculateSpectralCentroid [(3/4 : ℚ), 3/4] / 2000) * 0.2
      > (⟨2, 1, 1, 1, 0.4⟩ : VADConfig).voiceThreshold) := by
  refine ⟨by norm_num, by norm_num, ?_⟩
  exact vad_frame_score ⟨2, 1, 1, 1, 0.4⟩ [3/4, 3/4] (by norm_num)
    (by norm_num) (by norm_num)

/-! ## Capture callback and the recorder state machines -/

theorem convertFrame_length (p : List Nat) (n : Nat) :
    (convertFrame p n).length = n := by
  unfold convertFrame
  rw [foldl_length_invariant _ (fun m j => by dsimp only; split <;> simp)]
  exact List.length_replicate n 0

/-- **C10.** On every capture-callback invocation while recording, exactly
`framecount` samples are appended; sample `i` is the little-endian decode
of frame bytes `4i..4i+3` when `4i+3` lies inside the byte payload, and
`0.0` (bit pattern 0) otherwise — short frames pad with zeros and never
index out of bounds. -/
theorem capture_callback_appends (recording : Bool) (samples pSample : List Nat)
    (framecount : Nat) (hrec : recording = true) (i : Nat) (hi : i < framecount) :
    onRecvFrames recording samples pSample framecount
        = samples ++ convertFrame pSample framecount
    ∧ (convertFrame pSample framecount).length = framecount
    ∧ (convertFrame pSample framecount).getD i 0
        = if i * 4 + 3 < pSample.length then decodeF32LE pSample (i * 4) else 0 := by
  refine ⟨?_, convertFrame_length pSample framecount, ?_⟩
  · unfold onRecvFrames
    rw [hrec]
    simp
  · simp only [convertFrame]
    rw [foldl_set_guard_getD (fun j => j * 4 + 3 < pSample.length)
      (fun j => decodeF32LE pSample (j * 4)) 0 (List.range framecount) _ i]
    simp only [List.length_replicate, List.mem_range]
    by_cases hc : i * 4 + 3 < pSample.length
    · rw [if_pos ⟨hi, hc, hi⟩, if_pos hc]
    · rw [if_neg (fun hcon => hc hcon.2.1), if_neg hc,
        List.getD_eq_getElem?_getD, List.getElem?_replicate, if_pos hi]
      rfl

/-- Witness for `capture_callback_appends`: a 2-frame callback with an
8-byte payload while recording. -/
theorem capture_callback_appends_witness :
    (true = true) ∧ 0 < 2 ∧
    onRecvFrames true [9] [1, 0, 0, 0, 2, 0, 0, 0] 2
        = [9] ++ convertFrame [1, 0, 0, 0, 2, 0, 0, 0] 2
    ∧ (convertFrame [1, 0, 0, 0, 2, 0, 0, 0] 2).length = 2
    ∧ (convertFrame [1, 0, 0, 0, 2, 0, 0, 0] 2).getD 0 0
        = if 0 * 4 + 3 < ([1, 0, 0, 0, 2, 0, 0, 0] : List Nat).length
          then decodeF32LE [1, 0, 0, 0, 2, 0, 0, 0] (0 * 4) else 0 := by
  have h := capture_callback_appends true [9] [1, 0, 0, 0, 2, 0, 0, 0] 2 rfl 0
    (by decide)
  exact ⟨rfl, by decide, h.1, h.2.1, h.2.2⟩

/-- **C5 (code bug).** `LoopbackRecorder.Start` with one working monitor
device returns success, but the `lr.recording = true` assignment in the
source is unreachable (it follows a `return`), so the recorder is NOT
active afterwards: the capture callback appends nothing and `Stop()` fails
with `not recording` instead of returning the buffer. -/
theorem loopback_start_leaves_inactive :
    (LoopbackStart ⟨false, []⟩ [DevOutcome.ok]).2 = Except.ok () ∧
    (LoopbackStart ⟨false, []⟩ [DevOutcome.ok]).1.recording = false ∧
    loopbackCallback (LoopbackStart ⟨false, []⟩ [DevOutcome.ok]).1 [0, 0, 0, 0] 1
      = (LoopbackStart ⟨false, []⟩ [DevOutcome.ok]).1 ∧
    (LoopbackStop (LoopbackStart ⟨false, []⟩ [DevOutcome.ok]).1).2
      = Except.error "not recording" :=
  ⟨rfl, rfl, rfl, rfl⟩

/-- **C6 (code bug).** `App.startRecording` sets `isRecording` before
starting the microphone recorder and does not roll it back: when the mic
device fails to start, `Start()` returns the error yet the controller is
left claiming `Recording`, and `status` reports `"1"`, contradicting
"state unchanged on error". -/
theorem start_failure_leaves_recording_flag :
    (startRecording ⟨false, false, false⟩ (Except.ok ())
        (Except.error "failed to start device")).2
      = Except.error "failed to start device" ∧
    (startRecording ⟨false, false, false⟩ (Except.ok ())
        (Except.error "failed to start device")).1.isRecording = true ∧
    statusCommand (startRecording ⟨false, false, false⟩ (Except.ok ())
        (Except.error "failed to start device")).1 = "1" :=
  ⟨rfl, rfl, rfl⟩

end PipelineProofs
